import Mathlib

/-!
Shallow embedding of the WC3-sounds pi extension (src/index.ts): the
pack/category sound-selection engine with anti-repeat policy, the burst
("annoyed") detector, the model→pack resolver, the pack-switch logic, the
playback gate and the mute/volume commands.

Conventions of the embedding:
- JS numbers holding timestamps become `Int`; the volume and the random
  source become `ℚ` (all arithmetic the code performs on them is exact).
- The mutable module-level state (`muted`, `volume`, `currentPack`,
  `lastPlayed`, `promptTimestamps`, src/index.ts lines 50–54) becomes the
  structure `WC3State`; each function takes the state and returns the
  updated state explicitly.
- `lastPlayed` (a JS Record keyed by the six category names) becomes a
  function `Category → Option String`.
- The filesystem and the manifest files become an oracle `Env`:
  `Env.manifests pack` is the result of reading and JSON-parsing
  `packs/<pack>/manifest.json` (`none` exactly when the read or the parse
  fails, which the try/catch of `loadManifest` turns into `null`), and
  `Env.fileExists pack file` is `fs.existsSync` on
  `packs/<pack>/sounds/<file>` (the path components identify the file, so
  the joined path is carried as the pair).
- `Math.random()` becomes an explicit parameter `r : ℚ` with `0 ≤ r < 1`;
  the code's `Math.floor(Math.random() * candidates.length)` is
  `pickIndex r candidates.length`.
- A JS out-of-bounds element access followed by a property read
  (`candidates[i]` being `undefined`, then `pick.file` throwing a
  TypeError) is the explicit outcome `PickOutcome.crash`.
-/

/-- The closed category enumeration (src/index.ts line 43). -/
inductive Category where
  | greeting
  | acknowledge
  | complete
  | error
  | permission
  | annoyed
deriving DecidableEq, Repr

/-- One sound of a pack: asset file name and display line
    (interface SoundEntry, src/index.ts lines 32–35). -/
structure SoundEntry where
  file : String
  line : String
deriving DecidableEq, Repr

/-- A parsed pack manifest (interface PackManifest, src/index.ts lines
    37–41). The JS `categories` record maps a category name to
    `{ sounds: [...] }`; the embedding inlines the `sounds` field, so
    `categories c = some l` means the category key is present with sound
    list `l`, and `none` means the key is absent. -/
structure PackManifest where
  name : String
  display_name : String
  categories : Category → Option (List SoundEntry)

/-- The module-level mutable state (src/index.ts lines 50–54). -/
structure WC3State where
  muted : Bool
  volume : ℚ
  currentPack : String
  lastPlayed : Category → Option String
  promptTimestamps : List Int

/-- The external world: manifest files on disk and the platform check
    (PACKS_DIR contents, `fs`, IS_MACOS). -/
structure Env where
  manifests : String → Option PackManifest
  fileExists : String → String → Bool
  isMacos : Bool

/-- The empty `lastPlayed` record (`{}`). -/
def emptyLastPlayed : Category → Option String := fun _ => none

/-- Initial state (src/index.ts lines 50–54): not muted, volume 0.5,
    pack "peon", empty lastPlayed, no prompt timestamps. -/
def initialState : WC3State :=
  { muted := false
    volume := 1 / 2
    currentPack := "peon"
    lastPlayed := emptyLastPlayed
    promptTimestamps := [] }

def ANNOYED_THRESHOLD : Nat := 3

def ANNOYED_WINDOW_MS : Int := 10000

/-- Boolean substring containment on character lists, modelling JS
    `String.prototype.includes`. -/
def listContains (sub : List Char) : List Char → Bool
  | [] => sub.isEmpty
  | c :: t => sub.isPrefixOf (c :: t) || listContains sub t

/-- `s.includes sub` for strings. -/
def strIncludes (s sub : String) : Bool := listContains sub.toList s.toList

/-- JS `toLowerCase`, on the ASCII model identifiers the code matches
    (character-wise lower-casing). -/
def toLowerCase (s : String) : String := String.mk (s.toList.map Char.toLower)

/-- The model descriptor passed to `packForModel`
    (src/index.ts line 61). -/
structure ModelDesc where
  provider : Option String := none
  id : Option String := none
  name : Option String := none

/-- Model→pack resolver (src/index.ts lines 61–75). -/
def packForModel (model : Option ModelDesc) : String :=
  match model with
  | none => "peon"
  | some m =>
    let id := toLowerCase (m.id.getD "")
    let provider := toLowerCase (m.provider.getD "")
    if strIncludes id "codex" || strIncludes provider "codex" then "peasant"
    else if strIncludes id "claude" || strIncludes provider "anthropic" then "peon"
    else "peon"

/-- The pack-switch core shared by `syncPackToModel` (src/index.ts lines
    77–83) and the `model_select` handler (lines 146–156): if the new pack
    id differs, set it and clear `lastPlayed`, else do nothing. -/
def switchPack (newPack : String) (st : WC3State) : WC3State :=
  if newPack ≠ st.currentPack then
    { st with currentPack := newPack, lastPlayed := emptyLastPlayed }
  else st

/-- `syncPackToModel` (src/index.ts lines 77–83). -/
def syncPackToModel (model : Option ModelDesc) (st : WC3State) : WC3State :=
  switchPack (packForModel model) st

/-- `loadManifest` (src/index.ts lines 87–94): read and parse
    `packs/<packName>/manifest.json`; any read or parse failure is caught
    and becomes `none` (the JS `null`). The oracle `env.manifests` is that
    total read-or-fail result. -/
def loadManifest (env : Env) (packName : String) : Option PackManifest :=
  env.manifests packName

/-- The candidate list of `pickSound` (src/index.ts lines 104–106):
    when more than one sound exists, filter out the one matching
    `lastPlayed[category]`; a `lastFile` of `none` (key absent) matches no
    entry, as the JS `s.file !== undefined` is always true. -/
def pickCandidates (sounds : List SoundEntry) (lastFile : Option String) : List SoundEntry :=
  if 1 < sounds.length then sounds.filter (fun s => some s.file != lastFile) else sounds

/-- `Math.floor(r * len)` for the random draw `r` (src/index.ts
    line 108). -/
def pickIndex (r : ℚ) (len : Nat) : Nat := (Int.floor (r * len)).toNat

/-- Outcome of `pickSound`: returned `null`, returned an entry, or threw a
    TypeError reading `.file` off an out-of-bounds (`undefined`) element. -/
inductive PickOutcome where
  | noSound
  | picked (e : SoundEntry)
  | crash
deriving DecidableEq, Repr

/-- Point update of the `lastPlayed` record
    (`lastPlayed[category] = pick.file`, src/index.ts line 109). -/
def setLastPlayed (lp : Category → Option String) (c : Category) (f : String) :
    Category → Option String :=
  fun c' => if c' = c then some f else lp c'

/-- `pickSound` (src/index.ts lines 96–111). The locals `lastFile` and
    `candidates` of the source are `st.lastPlayed category` and
    `pickCandidates sounds (st.lastPlayed category)`. -/
def pickSound (env : Env) (st : WC3State) (category : Category) (r : ℚ) :
    PickOutcome × WC3State :=
  match loadManifest env st.currentPack with
  | none => (.noSound, st)
  | some manifest =>
    match manifest.categories category with
    | none => (.noSound, st)
    | some sounds =>
      if sounds.length = 0 then (.noSound, st)
      else
        match (pickCandidates sounds (st.lastPlayed category)).get?
            (pickIndex r (pickCandidates sounds (st.lastPlayed category)).length) with
        | none => (.crash, st)
        | some pick =>
          (.picked pick, { st with lastPlayed := setLastPlayed st.lastPlayed category pick.file })

/-- Outcome of `playSound`: returned `null` with no playback dispatch,
    returned a line (playback dispatched via execFile), or the TypeError
    from `pickSound` propagated. -/
inductive PlayResult where
  | noLine
  | line (l : String)
  | crash
deriving DecidableEq, Repr

/-- `playSound` (src/index.ts lines 113–129). The execFile dispatch
    happens exactly on the `.line` outcome; its errors are swallowed and
    never reach the state. -/
def playSound (env : Env) (st : WC3State) (category : Category) (r : ℚ) :
    PlayResult × WC3State :=
  if st.muted || !env.isMacos then (.noLine, st)
  else
    match pickSound env st category r with
    | (.noSound, st') => (.noLine, st')
    | (.crash, st') => (.crash, st')
    | (.picked sound, st') =>
      if env.fileExists st'.currentPack sound.file then (.line sound.line, st')
      else (.noLine, st')

/-- `checkAnnoyed` (src/index.ts lines 131–136): prune timestamps older
    than the window relative to `now`, append `now`, report whether the
    threshold is reached. -/
def checkAnnoyed (now : Int) (st : WC3State) : Bool × WC3State :=
  let pruned := st.promptTimestamps.filter (fun t => now - t < ANNOYED_WINDOW_MS)
  let ts := pruned ++ [now]
  (decide (ANNOYED_THRESHOLD ≤ ts.length), { st with promptTimestamps := ts })

/-- The `/wc3-mute` handler's state effect (src/index.ts line 213). -/
def toggleMute (st : WC3State) : WC3State := { st with muted := !st.muted }

/-- Model of the JS `parseFloat` builtin on the decimal literals the
    volume command receives: optional sign, integer digits, optional
    fraction digits; `none` models NaN (no leading numeric prefix);
    trailing characters are ignored as parseFloat does. -/
def digitsVal (ds : List Char) : Nat :=
  ds.foldl (fun a c => 10 * a + (c.toNat - 48)) 0

def jsParseFloat (s : String) : Option ℚ :=
  let go : Bool × List Char → Option ℚ := fun (neg, cs) =>
    let intDs := cs.takeWhile Char.isDigit
    let rest := cs.dropWhile Char.isDigit
    let fracDs :=
      match rest with
      | '.' :: t => t.takeWhile Char.isDigit
      | _ => []
    if intDs.isEmpty && fracDs.isEmpty then none
    else
      let mag : ℚ := (digitsVal intDs : ℚ) + (digitsVal fracDs : ℚ) / 10 ^ fracDs.length
      some (if neg then -mag else mag)
  match s.toList with
  | '-' :: t => go (true, t)
  | '+' :: t => go (false, t)
  | cs => go (false, cs)

/-- The volume-validation core of the `/wc3-volume` handler (src/index.ts
    lines 222–229 and 235–242): both the inline-argument path and the
    interactive path accept iff `parseFloat` yields a number in
    [0, 1], on success set `volume`, otherwise leave it unchanged (`false`
    reports the rejection the handler signals or the fall-through to the
    prompt). -/
def setVolume (input : String) (volume : ℚ) : ℚ × Bool :=
  match jsParseFloat input with
  | none => (volume, false)
  | some v => if 0 ≤ v ∧ v ≤ 1 then (v, true) else (volume, false)

/-- The full `/wc3-volume` handler state effect for one string input: on
    acceptance it also plays a greeting (src/index.ts lines 227
    and 243). -/
def wc3VolumeHandler (env : Env) (input : String) (r : ℚ) (st : WC3State) :
    WC3State × Bool :=
  match jsParseFloat input with
  | none => (st, false)
  | some v =>
    if 0 ≤ v ∧ v ≤ 1 then
      ((playSound env { st with volume := v } Category.greeting r).2, true)
    else (st, false)

/-! ### Concrete packs and environments used to exercise the definitions -/

/-- A pack with two distinct greeting sounds. -/
def manifest1 : PackManifest :=
  { name := "peon"
    display_name := "Orc Peon"
    categories := fun c =>
      match c with
      | Category.greeting => some [⟨"a.wav", "A"⟩, ⟨"b.wav", "B"⟩]
      | _ => none }

/-- Every pack resolves to `manifest1`; every asset file exists; macOS. -/
def env1 : Env :=
  { manifests := fun _ => some manifest1
    fileExists := fun _ _ => true
    isMacos := true }

/-- A pack with a single greeting sound. -/
def manifestSingle : PackManifest :=
  { name := "peon"
    display_name := "Orc Peon"
    categories := fun c =>
      match c with
      | Category.greeting => some [⟨"a.wav", "A"⟩]
      | _ => none }

/-- Manifest present, but no asset file exists on disk. -/
def envMissingFile : Env :=
  { manifests := fun _ => some manifestSingle
    fileExists := fun _ _ => false
    isMacos := true }

/-- No manifest can be read (every load fails). -/
def envNoManifest : Env :=
  { manifests := fun _ => none
    fileExists := fun _ _ => false
    isMacos := true }

/-- A malformed pack whose two greeting entries share one file name. -/
def manifestDup : PackManifest :=
  { name := "peon"
    display_name := "Orc Peon"
    categories := fun c =>
      match c with
      | Category.greeting => some [⟨"x", "A"⟩, ⟨"x", "B"⟩]
      | _ => none }

def envDup : Env :=
  { manifests := fun _ => some manifestDup
    fileExists := fun _ _ => true
    isMacos := true }

/-- State whose greeting `lastPlayed` equals the duplicated file name. -/
def stDup : WC3State :=
  { initialState with lastPlayed := setLastPlayed emptyLastPlayed Category.greeting "x" }

/-! ### Helper lemmas -/

lemma mem_pickCandidates {sounds : List SoundEntry} {lf : Option String}
    {e : SoundEntry} (h : e ∈ pickCandidates sounds lf) : e ∈ sounds := by
  unfold pickCandidates at h
  split at h
  · exact (List.mem_filter.mp h).1
  · exact h

lemma pickIndex_lt {r : ℚ} {n : ℕ} (h0 : 0 ≤ r) (h1 : r < 1) (hn : 0 < n) :
    pickIndex r n < n := by
  have hrn : r * n < (n : ℚ) := by
    calc r * n < 1 * n := by
          apply mul_lt_mul_of_pos_right h1
          exact_mod_cast hn
    _ = (n : ℚ) := one_mul _
  have hfl : Int.floor (r * (n : ℚ)) < (n : ℤ) := Int.floor_lt.mpr (by exact_mod_cast hrn)
  unfold pickIndex
  omega

lemma setLastPlayed_ne_empty (lp : Category → Option String) (c : Category) (f : String) :
    setLastPlayed lp c f ≠ emptyLastPlayed := by
  intro h
  have := congrFun h c
  simp [setLastPlayed, emptyLastPlayed] at this

lemma pickSound_picked_inv {env : Env} {st : WC3State} {c : Category} {r : ℚ}
    {e : SoundEntry} (hp : (pickSound env st c r).1 = PickOutcome.picked e) :
    (pickSound env st c r).2 = { st with lastPlayed := setLastPlayed st.lastPlayed c e.file } ∧
    ∃ m sounds, loadManifest env st.currentPack = some m ∧ m.categories c = some sounds ∧
      sounds.length ≠ 0 ∧ e ∈ pickCandidates sounds (st.lastPlayed c) := by
  unfold pickSound at hp ⊢
  split at hp
  · simp at hp
  · split at hp
    · simp at hp
    · split at hp
      · simp at hp
      · split at hp
        · simp at hp
        · rename_i o1 m hm o2 sounds hc h0 o3 pick hg
          injection hp with hpe
          subst hpe
          rw [if_neg h0]
          exact ⟨rfl, m, sounds, hm, hc, h0, List.get?_mem hg⟩

lemma pickSound_state_cases (env : Env) (st : WC3State) (c : Category) (r : ℚ) :
    (pickSound env st c r).2 = st ∨
    ∃ e, (pickSound env st c r).1 = PickOutcome.picked e ∧ (pickSound env st c r).2 =
      { st with lastPlayed := setLastPlayed st.lastPlayed c e.file } := by
  unfold pickSound
  split
  · exact Or.inl rfl
  · split
    · exact Or.inl rfl
    · split
      · exact Or.inl rfl
      · split
        · exact Or.inl rfl
        · rename_i pick hg
          exact Or.inr ⟨pick, rfl, rfl⟩

lemma playSound_state_cases (env : Env) (st : WC3State) (c : Category) (r : ℚ) :
    (playSound env st c r).2 = st ∨ (playSound env st c r).2 = (pickSound env st c r).2 := by
  unfold playSound
  split
  · exact Or.inl rfl
  · split
    · rename_i st' hps; exact Or.inr (by rw [hps])
    · rename_i st' hps; exact Or.inr (by rw [hps])
    · rename_i sound st' hps
      split
      · exact Or.inr (by rw [hps])
      · exact Or.inr (by rw [hps])

lemma filter_append_ne {l : List ℤ} {x : ℤ} {p : ℤ → Bool} (hx : p x = true) :
    l.filter p ++ [x] ≠ l := by
  intro h
  have hcount := congrArg (List.count x) h
  rw [List.count_append, List.count_filter hx, List.count_singleton,
    if_pos (by simp)] at hcount
  omega

lemma length_filter_file_ne (lf : Option String) {l : List SoundEntry}
    (h : (l.map (fun s => s.file)).Nodup) :
    l.length ≤ (l.filter (fun s => some s.file != lf)).length + 1 := by
  induction l with
  | nil => simp
  | cons a t ih =>
    rw [List.map_cons, List.nodup_cons] at h
    obtain ⟨hnot, hnd⟩ := h
    by_cases hb : (some a.file != lf) = true
    · rw [List.filter_cons, if_pos hb]
      simpa using Nat.add_le_add_right (ih hnd) 1
    · rw [List.filter_cons, if_neg hb]
      have hlf : lf = some a.file := by
        simp only [bne_iff_ne, ne_eq, not_not] at hb
        exact hb.symm
      have hall : t.filter (fun s => some s.file != lf) = t := by
        apply List.filter_eq_self.mpr
        intro s hs
        subst hlf
        simp only [bne_iff_ne, ne_eq, Option.some.injEq]
        intro hEq
        exact hnot (hEq ▸ List.mem_map_of_mem (fun s => s.file) hs)
      rw [hall]
      simp

lemma pickIndex_zero (n : ℕ) : pickIndex 0 n = 0 := by
  unfold pickIndex
  norm_num

/-- Concrete evaluation: on the two-sound pack from a fresh state with
random draw 0, `pickSound` picks the first entry and records it. -/
lemma pickSound_env1_initial :
    pickSound env1 initialState Category.greeting 0 =
      (PickOutcome.picked ⟨"a.wav", "A"⟩,
        { initialState with
            lastPlayed := setLastPlayed initialState.lastPlayed Category.greeting "a.wav" }) := by
  unfold pickSound
  rw [show loadManifest env1 initialState.currentPack = some manifest1 from rfl]
  show (if ([(⟨"a.wav", "A"⟩ : SoundEntry), ⟨"b.wav", "B"⟩].length = 0) then _ else _) = _
  rw [if_neg (by decide)]
  rw [show pickCandidates [(⟨"a.wav", "A"⟩ : SoundEntry), ⟨"b.wav", "B"⟩]
        (initialState.lastPlayed Category.greeting) =
      [(⟨"a.wav", "A"⟩ : SoundEntry), ⟨"b.wav", "B"⟩] from by decide]
  rw [pickIndex_zero]
  rfl

lemma two_distinct_length {l : List SoundEntry}
    (h : ∃ s₁ ∈ l, ∃ s₂ ∈ l, s₁.file ≠ s₂.file) : 1 < l.length := by
  obtain ⟨s₁, h₁, s₂, h₂, hne⟩ := h
  match l with
  | [] => simp at h₁
  | [a] =>
    simp at h₁ h₂
    exact absurd (h₁ ▸ h₂ ▸ rfl) hne
  | a :: b :: t => simp [Nat.lt_add_of_pos_left]

/-! ### Claim theorems -/

/-- C1: whenever `pickSound` returns an entry `e` for a category whose
manifest and sound list are present and the list is non-empty, `e` is a
member of the category's sound list, `lastPlayed[category]` equals
`e.file` afterwards, if the list holds at least two distinct file names
then `e.file` differs from the value `lastPlayed[category]` had before the
call, and if the list has exactly one entry then `e` is always that
entry. -/
theorem pickSound_picked_spec (env : Env) (st : WC3State) (category : Category)
    (r : ℚ) (e : SoundEntry) (m : PackManifest) (sounds : List SoundEntry)
    (hm : loadManifest env st.currentPack = some m)
    (hc : m.categories category = some sounds)
    (hp : (pickSound env st category r).1 = PickOutcome.picked e) :
    e ∈ sounds ∧
    (pickSound env st category r).2.lastPlayed category = some e.file ∧
    ((∃ s₁ ∈ sounds, ∃ s₂ ∈ sounds, s₁.file ≠ s₂.file) →
      st.lastPlayed category ≠ some e.file) ∧
    (sounds.length = 1 → sounds = [e]) := by
  obtain ⟨hst, m', sounds', hm', hc', h0', hmem⟩ := pickSound_picked_inv hp
  rw [hm] at hm'
  injection hm' with hmm
  subst hmm
  rw [hc] at hc'
  injection hc' with hss
  subst hss
  refine ⟨mem_pickCandidates hmem, ?_, ?_, ?_⟩
  · rw [hst]
    simp [setLastPlayed]
  · intro hdist
    have hlen := two_distinct_length hdist
    unfold pickCandidates at hmem
    rw [if_pos hlen] at hmem
    have hne := bne_iff_ne.mp (List.mem_filter.mp hmem).2
    exact hne.symm
  · intro h1
    have hnot : ¬ 1 < sounds.length := by omega
    unfold pickCandidates at hmem
    rw [if_neg hnot] at hmem
    obtain ⟨a, ha⟩ := List.length_eq_one.mp h1
    subst ha
    simp only [List.mem_singleton] at hmem
    rw [hmem]

/-- Witness for C1: a concrete call on the two-sound pack returns the
first entry and records it. -/
theorem pickSound_picked_spec_witness :
    (⟨"a.wav", "A"⟩ : SoundEntry) ∈ [(⟨"a.wav", "A"⟩ : SoundEntry), ⟨"b.wav", "B"⟩] ∧
    (pickSound env1 initialState Category.greeting 0).2.lastPlayed Category.greeting =
      some "a.wav" ∧
    ((∃ s₁ ∈ [(⟨"a.wav", "A"⟩ : SoundEntry), ⟨"b.wav", "B"⟩],
        ∃ s₂ ∈ [(⟨"a.wav", "A"⟩ : SoundEntry), ⟨"b.wav", "B"⟩], s₁.file ≠ s₂.file) →
      initialState.lastPlayed Category.greeting ≠ some "a.wav") ∧
    ([(⟨"a.wav", "A"⟩ : SoundEntry), ⟨"b.wav", "B"⟩].length = 1 →
      [(⟨"a.wav", "A"⟩ : SoundEntry), ⟨"b.wav", "B"⟩] = [⟨"a.wav", "A"⟩]) :=
  pickSound_picked_spec env1 initialState Category.greeting 0 ⟨"a.wav", "A"⟩
    manifest1 [⟨"a.wav", "A"⟩, ⟨"b.wav", "B"⟩] rfl rfl
    (by rw [pickSound_env1_initial])

/-- C4: when `muted` is true, `playSound` returns null for every category
and mutates no state: `lastPlayed` and `promptTimestamps` are exactly as
before the call. -/
theorem playSound_muted_noop (env : Env) (st : WC3State) (category : Category)
    (r : ℚ) (h : st.muted = true) :
    playSound env st category r = (PlayResult.noLine, st) := by
  unfold playSound
  rw [h]
  simp

/-- Witness for C4 at a concrete muted state. -/
theorem playSound_muted_noop_witness :
    playSound env1 { initialState with muted := true } Category.greeting 0 =
      (PlayResult.noLine, { initialState with muted := true }) :=
  playSound_muted_noop env1 { initialState with muted := true } Category.greeting 0 rfl

/-- C8: `loadManifest` is modelled as a total function into
`Option PackManifest` (the `try`/`catch` turns every read or parse
failure into the `null` sentinel rather than an exception), and when it
yields the sentinel `pickSound` returns null without mutating
`lastPlayed` or anything else. -/
theorem pickSound_manifest_failure (env : Env) (st : WC3State)
    (category : Category) (r : ℚ)
    (h : loadManifest env st.currentPack = none) :
    pickSound env st category r = (PickOutcome.noSound, st) := by
  unfold pickSound
  rw [h]

/-- Witness for C8: the environment where every manifest read fails. -/
theorem pickSound_manifest_failure_witness :
    pickSound envNoManifest initialState Category.greeting 0 =
      (PickOutcome.noSound, initialState) :=
  pickSound_manifest_failure envNoManifest initialState Category.greeting 0 rfl

/-- C9: for a sound list with at least two entries, a stale
`lastPlayed[category]` value matching none of the entries filters nothing
out: the candidate list is the full sound list. -/
theorem pickCandidates_stale (sounds : List SoundEntry) (f : String)
    (hlen : 2 ≤ sounds.length) (hstale : ∀ s ∈ sounds, s.file ≠ f) :
    pickCandidates sounds (some f) = sounds := by
  unfold pickCandidates
  rw [if_pos (by omega)]
  apply List.filter_eq_self.mpr
  intro s hs
  simp only [bne_iff_ne, ne_eq, Option.some.injEq]
  exact hstale s hs

/-- Witness for C9 on a concrete stale value. -/
theorem pickCandidates_stale_witness :
    pickCandidates [⟨"a.wav", "A"⟩, ⟨"b.wav", "B"⟩] (some "gone.wav") =
      [⟨"a.wav", "A"⟩, ⟨"b.wav", "B"⟩] :=
  pickCandidates_stale [⟨"a.wav", "A"⟩, ⟨"b.wav", "B"⟩] "gone.wav"
    (by decide) (by decide)

lemma pickSound_lastPlayed_ne_empty {env : Env} {st : WC3State} {c : Category}
    {r : ℚ} (hne : st.lastPlayed ≠ emptyLastPlayed) :
    (pickSound env st c r).2.lastPlayed ≠ emptyLastPlayed := by
  rcases pickSound_state_cases env st c r with h | ⟨e, _, h⟩
  · rw [h]; exact hne
  · rw [h]; exact setLastPlayed_ne_empty st.lastPlayed c e.file

lemma playSound_lastPlayed_ne_empty {env : Env} {st : WC3State} {c : Category}
    {r : ℚ} (hne : st.lastPlayed ≠ emptyLastPlayed) :
    (playSound env st c r).2.lastPlayed ≠ emptyLastPlayed := by
  rcases playSound_state_cases env st c r with h | h
  · rw [h]; exact hne
  · rw [h]; exact pickSound_lastPlayed_ne_empty hne

lemma stDup_lastPlayed_ne : stDup.lastPlayed ≠ emptyLastPlayed := by
  intro h
  have := congrFun h Category.greeting
  simp [stDup, setLastPlayed, emptyLastPlayed] at this

/-- C2: each `checkAnnoyed` call drops from `promptTimestamps` every entry
older than 10000 ms relative to `now`, appends `now`, and returns true iff
the resulting length is at least 3; at times 0, 1000, 2000 the third call
returns true, at 0, 6000, 13000 it returns false; and `promptTimestamps`
changes on every call, also when the result is false. -/
theorem checkAnnoyed_spec :
    (∀ (now : ℤ) (st : WC3State),
      (checkAnnoyed now st).2.promptTimestamps =
        st.promptTimestamps.filter (fun t => now - t < ANNOYED_WINDOW_MS) ++ [now] ∧
      ((checkAnnoyed now st).1 = true ↔
        ANNOYED_THRESHOLD ≤
          (st.promptTimestamps.filter (fun t => now - t < ANNOYED_WINDOW_MS) ++
            [now]).length) ∧
      (checkAnnoyed now st).2.promptTimestamps ≠ st.promptTimestamps) ∧
    (checkAnnoyed 2000 (checkAnnoyed 1000 (checkAnnoyed 0 initialState).2).2).1 = true ∧
    (checkAnnoyed 13000 (checkAnnoyed 6000 (checkAnnoyed 0 initialState).2).2).1 = false := by
  refine ⟨fun now st => ⟨rfl, ?_, ?_⟩, by decide, by decide⟩
  · unfold checkAnnoyed
    exact decide_eq_true_iff
  · exact filter_append_ne (by simp [ANNOYED_WINDOW_MS])

/-- C3: switching to the pack already current is a no-op; switching to a
different pack sets `currentPack` to it and clears `lastPlayed` (touching
nothing else); the model-sync operation is exactly that switch on the
resolved pack; and no other operation clears `lastPlayed`: `pickSound`,
`playSound`, `checkAnnoyed`, the mute toggle and the volume handler never
turn a non-empty `lastPlayed` into the empty record. -/
theorem switchPack_spec :
    (∀ st : WC3State, switchPack st.currentPack st = st) ∧
    (∀ (newPack : String) (st : WC3State), newPack ≠ st.currentPack →
      switchPack newPack st =
        { st with currentPack := newPack, lastPlayed := emptyLastPlayed }) ∧
    (∀ (model : Option ModelDesc) (st : WC3State),
      syncPackToModel model st = switchPack (packForModel model) st) ∧
    (∀ (env : Env) (st : WC3State) (category : Category) (r : ℚ),
      st.lastPlayed ≠ emptyLastPlayed →
      (pickSound env st category r).2.lastPlayed ≠ emptyLastPlayed) ∧
    (∀ (env : Env) (st : WC3State) (category : Category) (r : ℚ),
      st.lastPlayed ≠ emptyLastPlayed →
      (playSound env st category r).2.lastPlayed ≠ emptyLastPlayed) ∧
    (∀ (now : ℤ) (st : WC3State),
      (checkAnnoyed now st).2.lastPlayed = st.lastPlayed) ∧
    (∀ st : WC3State, (toggleMute st).lastPlayed = st.lastPlayed) ∧
    (∀ (env : Env) (input : String) (r : ℚ) (st : WC3State),
      st.lastPlayed ≠ emptyLastPlayed →
      (wc3VolumeHandler env input r st).1.lastPlayed ≠ emptyLastPlayed) := by
  refine ⟨?_, ?_, fun model st => rfl, fun env st c r hne => pickSound_lastPlayed_ne_empty hne,
    fun env st c r hne => playSound_lastPlayed_ne_empty hne, fun now st => rfl,
    fun st => rfl, ?_⟩
  · intro st
    unfold switchPack
    simp
  · intro newPack st h
    unfold switchPack
    rw [if_pos h]
  · intro env input r st hne
    unfold wc3VolumeHandler
    split
    · exact hne
    · split
      · exact playSound_lastPlayed_ne_empty hne
      · exact hne

/-- Witness for C3: a concrete real switch, and the pick, play and volume
operations on a concrete non-empty `lastPlayed`. -/
theorem switchPack_spec_witness :
    switchPack "peasant" initialState =
      { initialState with currentPack := "peasant", lastPlayed := emptyLastPlayed } ∧
    (pickSound env1 stDup Category.greeting 0).2.lastPlayed ≠ emptyLastPlayed ∧
    (playSound env1 stDup Category.greeting 0).2.lastPlayed ≠ emptyLastPlayed ∧
    (wc3VolumeHandler env1 "abc" 0 stDup).1.lastPlayed ≠ emptyLastPlayed :=
  ⟨switchPack_spec.2.1 "peasant" initialState (by decide),
   switchPack_spec.2.2.2.1 env1 stDup Category.greeting 0 stDup_lastPlayed_ne,
   switchPack_spec.2.2.2.2.1 env1 stDup Category.greeting 0 stDup_lastPlayed_ne,
   switchPack_spec.2.2.2.2.2.2.2 env1 "abc" 0 stDup stDup_lastPlayed_ne⟩

/-- C5: `packForModel` is a pure total function: an absent descriptor
yields "peon"; a descriptor whose lower-cased id or provider contains
"codex" yields "peasant"; any other descriptor — including those whose id
or provider contains "claude" or "anthropic" — yields "peon"; with the
spec's concrete inputs mapping as listed. -/
theorem packForModel_spec :
    packForModel none = "peon" ∧
    (∀ m : ModelDesc,
      (strIncludes (toLowerCase (m.id.getD "")) "codex" ||
        strIncludes (toLowerCase (m.provider.getD "")) "codex") = true →
      packForModel (some m) = "peasant") ∧
    (∀ m : ModelDesc,
      (strIncludes (toLowerCase (m.id.getD "")) "codex" ||
        strIncludes (toLowerCase (m.provider.getD "")) "codex") = false →
      packForModel (some m) = "peon") ∧
    packForModel (some { id := some "claude-3-opus" }) = "peon" ∧
    packForModel (some { id := some "gpt-5-codex" }) = "peasant" ∧
    packForModel (some { provider := some "anthropic" }) = "peon" := by
  refine ⟨rfl, ?_, ?_, by decide, by decide, by decide⟩
  · intro m h
    unfold packForModel
    simp [h]
  · intro m h
    unfold packForModel
    simp [h]

/-- Witness for C5: the codex branch at a concrete descriptor. -/
theorem packForModel_spec_witness :
    packForModel (some { provider := some "OpenAI-Codex" }) = "peasant" :=
  packForModel_spec.2.1 { provider := some "OpenAI-Codex" } (by decide)

lemma jsParseFloat_half : jsParseFloat "0.5" = some (1 / 2) := by
  rw [show jsParseFloat "0.5" =
      some ((digitsVal ['0'] : ℚ) + (digitsVal ['5'] : ℚ) / 10 ^ (1 : ℕ)) from rfl,
    show digitsVal ['0'] = 0 from rfl, show digitsVal ['5'] = 5 from rfl]
  norm_num

lemma jsParseFloat_three_halves : jsParseFloat "1.5" = some (3 / 2) := by
  rw [show jsParseFloat "1.5" =
      some ((digitsVal ['1'] : ℚ) + (digitsVal ['5'] : ℚ) / 10 ^ (1 : ℕ)) from rfl,
    show digitsVal ['1'] = 1 from rfl, show digitsVal ['5'] = 5 from rfl]
  norm_num

lemma jsParseFloat_neg_tenth : jsParseFloat "-0.1" = some (-(1 / 10)) := by
  rw [show jsParseFloat "-0.1" =
      some (-((digitsVal ['0'] : ℚ) + (digitsVal ['1'] : ℚ) / 10 ^ (1 : ℕ))) from rfl,
    show digitsVal ['0'] = 0 from rfl, show digitsVal ['1'] = 1 from rfl]
  norm_num

/-- C6: the volume setter accepts an input iff it parses to a number `v`
with `0 ≤ v ≤ 1`, in which case the volume becomes `v`; otherwise it
rejects and the volume is unchanged; "0.5" is accepted as 0.5 while
"1.5", "-0.1" and "abc" are rejected with the volume unchanged. -/
theorem setVolume_spec :
    (∀ (input : String) (vol : ℚ),
      ((setVolume input vol).2 = true ↔
        ∃ v, jsParseFloat input = some v ∧ 0 ≤ v ∧ v ≤ 1) ∧
      ((setVolume input vol).2 = true →
        jsParseFloat input = some (setVolume input vol).1) ∧
      ((setVolume input vol).2 = false → (setVolume input vol).1 = vol)) ∧
    (∀ vol : ℚ, setVolume "0.5" vol = (1 / 2, true)) ∧
    (∀ vol : ℚ, setVolume "1.5" vol = (vol, false)) ∧
    (∀ vol : ℚ, setVolume "-0.1" vol = (vol, false)) ∧
    (∀ vol : ℚ, setVolume "abc" vol = (vol, false)) := by
  refine ⟨fun input vol => ?_, fun vol => ?_, fun vol => ?_, fun vol => ?_, fun vol => ?_⟩
  · simp only [setVolume]
    cases hj : jsParseFloat input with
    | none => simp
    | some v =>
      dsimp only
      by_cases hr : 0 ≤ v ∧ v ≤ 1
      · rw [if_pos hr]
        exact ⟨⟨fun _ => ⟨v, rfl, hr⟩, fun _ => rfl⟩, fun _ => rfl,
          fun hf => absurd hf (by simp)⟩
      · rw [if_neg hr]
        refine ⟨⟨fun hf => absurd hf (by simp), ?_⟩, fun hf => absurd hf (by simp),
          fun _ => rfl⟩
        rintro ⟨v', hv', hr'⟩
        injection hv' with hvv
        exact absurd (hvv ▸ hr') hr
  · unfold setVolume
    rw [jsParseFloat_half]
    dsimp only
    rw [if_pos (by norm_num)]
  · unfold setVolume
    rw [jsParseFloat_three_halves]
    dsimp only
    rw [if_neg (by norm_num)]
  · unfold setVolume
    rw [jsParseFloat_neg_tenth]
    dsimp only
    rw [if_neg (by norm_num)]
  · unfold setVolume
    rw [show jsParseFloat "abc" = none from rfl]

/-- Witness for C6: the rejection branch leaves a concrete volume
unchanged. -/
theorem setVolume_spec_witness :
    (setVolume "abc" (1 / 4)).1 = 1 / 4 :=
  (setVolume_spec.1 "abc" (1 / 4)).2.2 rfl

/-- Concrete evaluation: on the single-sound pack from a fresh state,
`pickSound` picks the only entry and records it. -/
lemma pickSound_envMissingFile_initial :
    pickSound envMissingFile initialState Category.greeting 0 =
      (PickOutcome.picked ⟨"a.wav", "A"⟩,
        { initialState with
            lastPlayed := setLastPlayed initialState.lastPlayed Category.greeting "a.wav" }) := by
  unfold pickSound
  rw [show loadManifest envMissingFile initialState.currentPack = some manifestSingle from rfl]
  show (if ([(⟨"a.wav", "A"⟩ : SoundEntry)].length = 0) then _ else _) = _
  rw [if_neg (by decide)]
  rw [show pickCandidates [(⟨"a.wav", "A"⟩ : SoundEntry)]
        (initialState.lastPlayed Category.greeting) =
      [(⟨"a.wav", "A"⟩ : SoundEntry)] from by decide]
  rw [pickIndex_zero]
  rfl

/-- C7 counterexample: with the asset file missing, `playSound` does
return null, but the selection state is NOT the same as in the
"no sound found" case: the missing-file call leaves
`lastPlayed[greeting] = some "a.wav"` while the no-sound call (same
initial state) leaves it `none`. -/
theorem playSound_missing_file_cx :
    (playSound envMissingFile initialState Category.greeting 0).1 = PlayResult.noLine ∧
    (playSound envMissingFile initialState Category.greeting 0).2.lastPlayed
      Category.greeting = some "a.wav" ∧
    (playSound envNoManifest initialState Category.greeting 0).2.lastPlayed
      Category.greeting = none ∧
    initialState.lastPlayed Category.greeting = none := by
  refine ⟨?_, ?_, rfl, rfl⟩
  · unfold playSound
    rw [if_neg (by decide), pickSound_envMissingFile_initial]
    rfl
  · unfold playSound
    rw [if_neg (by decide), pickSound_envMissingFile_initial]
    rfl

/-- C7 amended: when not muted and on macOS, if `pickSound` selects an
entry whose asset file does not exist on the filesystem, `playSound`
returns null and dispatches no playback — but, unlike the "no sound
found" case, the selection state keeps the update made by `pickSound`:
`lastPlayed[category]` now holds the selected file. -/
theorem playSound_missing_file_amended (env : Env) (st : WC3State)
    (category : Category) (r : ℚ) (e : SoundEntry)
    (hmut : st.muted = false) (hmac : env.isMacos = true)
    (hp : (pickSound env st category r).1 = PickOutcome.picked e)
    (hex : env.fileExists st.currentPack e.file = false) :
    playSound env st category r = (PlayResult.noLine, (pickSound env st category r).2) ∧
    (pickSound env st category r).2.lastPlayed category = some e.file := by
  obtain ⟨hst, _⟩ := pickSound_picked_inv hp
  constructor
  · unfold playSound
    rw [hmut, hmac]
    rw [if_neg (by simp)]
    rcases hps : pickSound env st category r with ⟨o, st2⟩
    rw [hps] at hp hst
    simp only at hp hst
    subst hp
    have hcp : st2.currentPack = st.currentPack := by rw [hst]
    show (if env.fileExists st2.currentPack e.file = true then _ else _) = _
    rw [if_neg (by rw [hcp, hex]; simp)]
  · rw [hst]
    simp [setLastPlayed]

/-- Witness for the amended C7 at the concrete missing-file
environment. -/
theorem playSound_missing_file_amended_witness :
    (playSound envMissingFile initialState Category.greeting 0 =
      (PlayResult.noLine, (pickSound envMissingFile initialState Category.greeting 0).2)) ∧
    (pickSound envMissingFile initialState Category.greeting 0).2.lastPlayed
      Category.greeting = some "a.wav" :=
  playSound_missing_file_amended envMissingFile initialState Category.greeting 0
    ⟨"a.wav", "A"⟩ rfl rfl (by rw [pickSound_envMissingFile_initial]) rfl

/-- C10: `pickSound`'s random index stays in bounds — the crash branch is
unreachable — whenever the file names within the looked-up category list
are pairwise distinct (then filtering removes at most one entry, so the
candidate list is never empty); and without that precondition the crash
branch is reachable: with two entries sharing one file equal to
`lastPlayed[category]`, the filtered candidates are empty and the access
is out of bounds. -/
theorem pickSound_index_safety :
    (∀ (env : Env) (st : WC3State) (category : Category) (r : ℚ),
      0 ≤ r → r < 1 →
      (∀ m sounds, loadManifest env st.currentPack = some m →
        m.categories category = some sounds →
        (sounds.map (fun s => s.file)).Nodup) →
      (pickSound env st category r).1 ≠ PickOutcome.crash) ∧
    (pickSound envDup stDup Category.greeting 0).1 = PickOutcome.crash := by
  constructor
  · intro env st category r h0 h1 hnd
    unfold pickSound
    split
    · simp
    · split
      · simp
      · split
        · simp
        · rename_i o1 m hm o2 sounds hc hlen0
          have hnodup := hnd m sounds hm hc
          have hpos : 0 < (pickCandidates sounds (st.lastPlayed category)).length := by
            unfold pickCandidates
            split
            · have hb := length_filter_file_ne (st.lastPlayed category) hnodup
              rename_i hlt
              omega
            · omega
          cases hg : (pickCandidates sounds (st.lastPlayed category)).get?
              (pickIndex r (pickCandidates sounds (st.lastPlayed category)).length) with
          | none =>
            exfalso
            have hnone := List.get?_eq_none.mp hg
            have hidx := pickIndex_lt h0 h1 hpos
            omega
          | some pick => simp
  · decide

/-- Witness for C10's safety part at a concrete distinct-file pack. -/
theorem pickSound_index_safety_witness :
    (pickSound env1 initialState Category.greeting 0).1 ≠ PickOutcome.crash :=
  pickSound_index_safety.1 env1 initialState Category.greeting 0 (le_refl 0)
    (by norm_num)
    (fun m sounds hm hc => by
      injection hm with h
      subst h
      injection hc with h2
      subst h2
      decide)

/-- Witness for C2 at a concrete call. -/
theorem checkAnnoyed_spec_witness :
    (checkAnnoyed 1000 initialState).2.promptTimestamps =
      initialState.promptTimestamps.filter (fun t => 1000 - t < ANNOYED_WINDOW_MS) ++
        [1000] ∧
    ((checkAnnoyed 1000 initialState).1 = true ↔
      ANNOYED_THRESHOLD ≤
        (initialState.promptTimestamps.filter (fun t => 1000 - t < ANNOYED_WINDOW_MS) ++
          [1000]).length) ∧
    (checkAnnoyed 1000 initialState).2.promptTimestamps ≠
      initialState.promptTimestamps :=
  checkAnnoyed_spec.1 1000 initialState
